import Mathlib

/-!
Verification of the smartdb BIN-lookup service core (src/api.py).

The development shallowly embeds the data-loading/indexing engine and the
query evaluation logic of src/api.py:

* Python dicts (BIN_INDEX, COUNTRY_DATA) are modelled as insertion-ordered
  association lists with in-place update on key collision, matching CPython
  dict semantics.
* Python string operations used by the source (str.lower, str.upper,
  str.endswith, str.replace('.json', ''), str.strip, substring containment)
  are modelled structurally on the underlying character list so that every
  definition evaluates inside the kernel.  As in CPython's ASCII fast path,
  case mapping is modelled on the basic latin letters, which covers all
  inputs the service manipulates (country codes, filenames, issuer names).
* The asyncio fan-out in load_data is modelled as a fold in file iteration
  order: the source's per-file insertion step contains no suspension point,
  so each file's insertion is atomic and the sequential fold is the
  canonical interleaving.
-/

namespace SmartDb

/-! ## Python string primitives -/

/-- Python str.lower for one character (basic latin range). -/
def lowerChar (c : Char) : Char :=
  if 65 ≤ c.toNat ∧ c.toNat ≤ 90 then Char.ofNat (c.toNat + 32) else c

/-- Python str.upper for one character (basic latin range). -/
def upperChar (c : Char) : Char :=
  if 97 ≤ c.toNat ∧ c.toNat ≤ 122 then Char.ofNat (c.toNat - 32) else c

/-- Python str.lower. -/
def strLower (s : String) : String := ⟨s.data.map lowerChar⟩

/-- Python str.upper. -/
def strUpper (s : String) : String := ⟨s.data.map upperChar⟩

/-- Python str.endswith. -/
def strEndsWith (s suffix : String) : Bool :=
  suffix.data.isSuffixOf s.data

/-- Python whitespace test used by str.strip (the characters relevant here). -/
def isSpaceChar (c : Char) : Bool :=
  c == ' ' || c == '\t' || c == '\n' || c == '\r'

/-- Python str.strip: drop whitespace from both ends. -/
def strTrim (s : String) : String :=
  ⟨((s.data.dropWhile isSpaceChar).reverse.dropWhile isSpaceChar).reverse⟩

/-- Containment test on character lists: does needle occur contiguously in hay?
Embeds the Python expression needle in hay. -/
def containsSub (hay needle : List Char) : Bool :=
  (List.range (hay.length + 1)).any fun i => needle.isPrefixOf (hay.drop i)

/-- Embeds the source expression filename.replace('.json', ''): remove every
(case-sensitive, non-overlapping, left-to-right) occurrence of ".json". -/
def stripJsonOcc : List Char → List Char
  | '.' :: 'j' :: 's' :: 'o' :: 'n' :: rest => stripJsonOcc rest
  | c :: rest => c :: stripJsonOcc rest
  | [] => []

/-! ## Data model (src/api.py records and indexes) -/

/-- One card-range entry as read from a country JSON file.  Every field the
source ever reads is optional: Python dict .get with default covers absence. -/
structure Record where
  bin : Option String := none
  brand : Option String := none
  category : Option String := none
  typ : Option String := none
  issuer : Option String := none
  country_code : Option String := none
  country_code_alpha3 : Option String := none
  phone : Option String := none
  website : Option String := none
deriving DecidableEq

/-- The shape returned by get_country_info (src/api.py lines 52-75). -/
structure CountryInfo where
  A2 : String
  A3 : String
  N3 : String
  Name : String
  Cont : String
deriving DecidableEq

/-- One row of the external pycountry ISO-3166 table. -/
structure PyCountry where
  alpha_2 : String
  alpha_3 : String
  numeric : String
  name : String
deriving DecidableEq

/-- Modelled from the spec: the external pycountry static ISO-3166-like
country list (a pure reference table, not code of this repository); a
representative finite fragment suffices for the embedding. -/
def pycountry_table : List PyCountry :=
  [⟨"US", "USA", "840", "United States"⟩,
   ⟨"GB", "GBR", "826", "United Kingdom"⟩,
   ⟨"DE", "DEU", "276", "Germany"⟩,
   ⟨"BD", "BGD", "050", "Bangladesh"⟩,
   ⟨"AQ", "ATA", "010", "Antarctica"⟩]

/-- Embeds pycountry.countries.get(alpha_2=...). -/
def pycountry_get (a2 : String) : Option PyCountry :=
  pycountry_table.find? fun c => c.alpha_2 == a2

/-- Modelled from the spec: the external pycountry_convert continent mapping
(alpha-2 code to continent name); AQ has no continent code, matching the
library raising for it. -/
def continent_table : List (String × String) :=
  [("US", "North America"),
   ("GB", "Europe"),
   ("DE", "Europe"),
   ("BD", "Asia")]

/-- Continent lookup; none models the pycountry_convert call raising. -/
def continent_of (a2 : String) : Option String :=
  (continent_table.find? fun p => p.1 == a2).map Prod.snd

/-- Embeds get_country_info (src/api.py lines 52-75): unknown codes degrade to
an echo of the upper-cased input; a continent failure degrades to "". -/
def get_country_info (country_code : String) : CountryInfo :=
  match pycountry_get (strUpper country_code) with
  | none =>
    { A2 := strUpper country_code, A3 := "", N3 := "", Name := "", Cont := "" }
  | some c =>
    { A2 := c.alpha_2, A3 := c.alpha_3, N3 := c.numeric, Name := c.name,
      Cont := (continent_of c.alpha_2).getD "" }

/-- The response shape built by format_entry (src/api.py lines 77-94).
TypeU embeds the dict key "Type" and typeL the dict key "type"; both carry
entry.get('type', ''). -/
structure FormattedEntry where
  bin : String
  brand : String
  category : String
  CardTier : String
  country_code : String
  TypeU : String
  country_code_alpha3 : String
  Country : CountryInfo
  issuer : String
  phone : String
  typeL : String
  website : String
deriving DecidableEq

/-- Embeds format_entry (src/api.py lines 77-94). -/
def format_entry (e : Record) : FormattedEntry :=
  let cc := strUpper (e.country_code.getD "")
  { bin := e.bin.getD ""
    brand := e.brand.getD ""
    category := e.category.getD ""
    CardTier := strTrim (e.category.getD "" ++ " " ++ e.brand.getD "")
    country_code := cc
    TypeU := e.typ.getD ""
    country_code_alpha3 := e.country_code_alpha3.getD ""
    Country := get_country_info cc
    issuer := e.issuer.getD ""
    phone := e.phone.getD ""
    typeL := e.typ.getD ""
    website := e.website.getD "" }

/-! ## Insertion-ordered association lists (CPython dict semantics) -/

/-- Dict assignment d[k] = v: update in place if the key exists, else append. -/
def alInsert {α : Type} : List (String × α) → String → α → List (String × α)
  | [], k, v => [(k, v)]
  | (k', v') :: rest, k, v =>
    if k' = k then (k, v) :: rest else (k', v') :: alInsert rest k v

/-- Dict read d.get(k) / membership k in d. -/
def alLookup {α : Type} : List (String × α) → String → Option α
  | [], _ => none
  | (k', v) :: rest, k => if k' = k then some v else alLookup rest k

/-- The two in-memory indexes: BIN_INDEX and COUNTRY_DATA (src/api.py
lines 13-14), with dict iteration order preserved. -/
structure LookupState where
  binIndex : List (String × Record)
  countryData : List (String × List Record)
deriving DecidableEq

/-- The module-initial state: both dicts empty. -/
def emptyState : LookupState := ⟨[], []⟩

/-! ## DatasetLoader (src/api.py lines 17-50) -/

/-- The BIN_INDEX loop of load_file (src/api.py lines 25-27): insert each
entry that has a bin field, in sequence order. -/
def insertBins (bi : List (String × Record)) (entries : List Record) :
    List (String × Record) :=
  entries.foldl
    (fun m e => match e.bin with | some b => alInsert m b e | none => m) bi

/-- The success body of load_file (src/api.py lines 24-27): set
COUNTRY_DATA[country_code] = data, then index every entry with a bin. -/
def applyFile (s : LookupState) (country_code : String) (data : List Record) :
    LookupState :=
  { countryData := alInsert s.countryData country_code data
    binIndex := insertBins s.binIndex data }

/-- Embeds load_file (src/api.py lines 17-33).  The parse outcome of each of
the up-to-3 attempts is a parameter (some data when json.load succeeds, none
when it raises); the first success mutates the indexes and returns True, and
exhausting all attempts returns False with the state untouched. -/
def load_file : List (Option (List Record)) → String → LookupState →
    LookupState × Bool
  | [], _, s => (s, false)
  | none :: rest, cc, s => load_file rest cc s
  | some data :: _, cc, s => (applyFile s cc data, true)

/-- One directory entry: its name and the parse outcome of each attempt. -/
structure SourceFile where
  filename : String
  attempts : List (Option (List Record))
deriving DecidableEq

/-- The filename filter of load_data (src/api.py line 42):
filename.lower().endswith('.json'). -/
def isJsonName (name : String) : Bool :=
  strEndsWith (strLower name) ".json"

/-- The country-code derivation of load_data (src/api.py line 43):
filename.replace('.json', '').upper(). -/
def fileCode (name : String) : String :=
  strUpper ⟨stripJsonOcc name.data⟩

/-- One step of load_data's per-file processing: a .json file is loaded via
load_file (failures add 1 to the failed count, src/api.py line 47); any other
file is skipped entirely. -/
def loadStep (acc : LookupState × Nat) (f : SourceFile) : LookupState × Nat :=
  if isJsonName f.filename then
    let r := load_file f.attempts (fileCode f.filename) acc.1
    (r.1, if r.2 then acc.2 else acc.2 + 1)
  else acc

/-- Embeds load_data (src/api.py lines 35-50) over a directory listing,
returning the final state and the failed-file count.  Each file's insertion
is atomic (no suspension point inside load_file's critical section), so the
fold in listing order is the canonical interleaving of the fan-out. -/
def load_data (files : List SourceFile) (s : LookupState) : LookupState × Nat :=
  files.foldl loadStep (s, 0)

/-- A completed load in which every file parsed successfully, as the ordered
sequence of per-file (country code, records) insertions: each step is
load_file's success body applyFile. -/
def loadAll (fs : List (String × List Record)) (s : LookupState) : LookupState :=
  fs.foldl (fun st p => applyFile st p.1 p.2) s

/-! ## QueryEngine (src/api.py lines 102-236) -/

/-- Outcome of a query endpoint.  success carries the data list, the count
field and the filtered_by field of the response; error carries the message
and the HTTP status code; validationError is the FastAPI parameter-validation
rejection produced by the gt=0 constraint on limit (src/api.py line 107)
before the handler body runs. -/
inductive ApiResult where
  | success (data : List FormattedEntry) (count : Nat) (filtered_by : String)
  | error (message : String) (code : Nat)
  | validationError
deriving DecidableEq

/-- The configured dataset directory (src/api.py line 12, default value). -/
def COUNTRY_JSON_DIR : String := "data"

/-- The 500 message of src/api.py lines 118 and 172. -/
def emptyMsg : String :=
  "Data directory not found or empty: " ++ COUNTRY_JSON_DIR

/-- The 400 message of src/api.py line 196. -/
def badRequestMsg : String :=
  "Please provide either 'bank', 'country', or 'bin' query parameter"

/-- Python truthiness of an optional query parameter: absent and empty string
are both falsy (the dispatch tests if bank: / elif country: / elif bin:). -/
def truthy : Option String → Bool
  | none => false
  | some s => !(s == "")

/-- The bank-mode match test (src/api.py line 125):
'issuer' in entry and bank.lower() in entry['issuer'].lower(). -/
def issuerMatches (bank : String) (e : Record) : Bool :=
  match e.issuer with
  | some iss => containsSub (strLower iss).data (strLower bank).data
  | none => false

/-- The full (pre-limit) bank-mode result list (src/api.py lines 122-126):
scan all countries' sequences in dict order, collect and enrich matches. -/
def bankMatches (s : LookupState) (bank : String) : List FormattedEntry :=
  (((s.countryData.map Prod.snd).flatten).filter (issuerMatches bank)).map
    format_entry

/-- Python list slicing lst[:limit] for an arbitrary integer limit: a
nonnegative limit keeps the first limit elements; a negative limit drops
the last |limit| elements. -/
def pySliceTo {α : Type} (l : Int) (xs : List α) : List α :=
  if 0 ≤ l then xs.take l.toNat else xs.take (xs.length - (-l).toNat)

/-- Truncation step shared by the bank and country modes (src/api.py
lines 134-135 and 156-157): slice only when limit is not None. -/
def applyLimit (limit : Option Int) (xs : List FormattedEntry) :
    List FormattedEntry :=
  match limit with
  | some l => pySliceTo l xs
  | none => xs

/-- Embeds the handler body of get_bins after the lazy reload (src/api.py
lines 114-199): dispatch on parameter truthiness in order bank, country, bin,
with the per-mode emptiness checks, matching, enrichment, limiting and error
responses of the source. -/
def get_bins_core (s : LookupState) (bank country bin : Option String)
    (limit : Option Int) : ApiResult :=
  if truthy bank then
    let bq := bank.getD ""
    if s.countryData = [] then .error emptyMsg 500
    else
      let ms := bankMatches s bq
      if ms = [] then .error ("No matches found for bank: " ++ bq) 404
      else
        let out := applyLimit limit ms
        .success out out.length "bank"
  else if truthy country then
    let cq := strUpper (country.getD "")
    match alLookup s.countryData cq with
    | none => .error ("No data found for country code: " ++ cq) 404
    | some data =>
      let out := applyLimit limit (data.map format_entry)
      .success out out.length "country"
  else if truthy bin then
    let bq := bin.getD ""
    if s.binIndex = [] then .error emptyMsg 500
    else
      match alLookup s.binIndex bq with
      | some r => .success [format_entry r] 1 "bin"
      | none => .error ("No matches found for BIN: " ++ bq) 404
  else .error badRequestMsg 400

/-- Embeds the /api/bin endpoint (src/api.py lines 102-199): FastAPI first
validates limit against gt=0; the handler then lazily reloads when both
indexes are empty (lines 110-112) and runs the dispatch body. -/
def get_bins_api (files : List SourceFile) (s : LookupState)
    (bank country bin : Option String) (limit : Option Int) : ApiResult :=
  match limit with
  | some l =>
    if l ≤ 0 then .validationError
    else
      let s1 := if s.countryData = [] ∧ s.binIndex = [] then
        (load_data files s).1 else s
      get_bins_core s1 bank country bin limit
  | none =>
    let s1 := if s.countryData = [] ∧ s.binIndex = [] then
      (load_data files s).1 else s
    get_bins_core s1 bank country bin limit

/-- Embeds the /api/binfo endpoint get_bin_info (src/api.py lines 201-236):
missing/empty bin is a 400; an empty BIN_INDEX triggers a reload and, if
still empty, a 500; otherwise an exact lookup. -/
def get_bin_info (files : List SourceFile) (s : LookupState)
    (bin : Option String) : ApiResult :=
  if truthy bin then
    let bq := bin.getD ""
    let s1 := if s.binIndex = [] then (load_data files s).1 else s
    if s1.binIndex = [] then .error emptyMsg 500
    else
      match alLookup s1.binIndex bq with
      | some r => .success [format_entry r] 1 "bin"
      | none => .error ("No matches found for BIN: " ++ bq) 404
  else .error "Please provide 'bin' query parameter" 400

/-! ## Specification vocabulary for the index contents -/

/-- First-some choice on options (left operand wins when present). -/
def oor {α : Type} : Option α → Option α → Option α
  | some x, _ => some x
  | none, b => b

/-- Last element of a list, as an option. -/
def lastOf {α : Type} : List α → Option α
  | [] => none
  | [a] => some a
  | _ :: b :: rest => lastOf (b :: rest)

/-- The last record in a sequence whose bin field is the given value. -/
def lastWithBin (entries : List Record) (b : String) : Option Record :=
  lastOf (entries.filter fun e => e.bin == some b)

/-- All records of a completed load, in load order. -/
def allEntries (fs : List (String × List Record)) : List Record :=
  (fs.map Prod.snd).flatten

/-! ## Raw-entry loader (the exact mutation order of load_file)

The Record-typed loader above covers files whose content is a JSON array of
objects.  src/api.py lines 24-27 however mutate COUNTRY_DATA before the
BIN_INDEX loop runs, and the loop itself can raise: a valid-JSON entry that
is not a dict or string (a number, bool or null) makes the membership test
'bin' in entry raise TypeError.  The raw model keeps that mutation order so
the mid-loop failure path is representable. -/

/-- One element of a parsed JSON array: either an object (a record) or a
scalar on which the membership test 'bin' in entry raises TypeError. -/
inductive RawEntry where
  | obj (r : Record)
  | scalarBad
deriving DecidableEq

/-- Outcome of one json.load call: the call raises, or yields an array. -/
inductive RawParse where
  | failJson
  | arr (xs : List RawEntry)
deriving DecidableEq

/-- The two indexes when raw (possibly non-record) entries are stored. -/
structure RawState where
  binIndex : List (String × Record)
  countryData : List (String × List RawEntry)
deriving DecidableEq

/-- The BIN_INDEX loop of src/api.py lines 25-27 over raw entries: false
means the loop raised at a scalar entry, keeping the insertions made so
far. -/
def rawInsertBins (bi : List (String × Record)) :
    List RawEntry → List (String × Record) × Bool
  | [] => (bi, true)
  | .obj r :: rest =>
    rawInsertBins (match r.bin with | some b => alInsert bi b r | none => bi) rest
  | .scalarBad :: _ => (bi, false)

/-- Embeds load_file (src/api.py lines 17-33) over raw parse outcomes:
each attempt that parses assigns COUNTRY_DATA[country_code] first, then runs
the BIN_INDEX loop; an exception inside the loop fails the attempt but keeps
every mutation already made. -/
def load_file_raw : List RawParse → String → RawState → RawState × Bool
  | [], _, s => (s, false)
  | .failJson :: rest, cc, s => load_file_raw rest cc s
  | .arr xs :: rest, cc, s =>
    let withCountry : RawState :=
      { countryData := alInsert s.countryData cc xs, binIndex := s.binIndex }
    let r := rawInsertBins withCountry.binIndex xs
    if r.2 then ({ withCountry with binIndex := r.1 }, true)
    else load_file_raw rest cc { withCountry with binIndex := r.1 }

/-! ## Concrete fixtures used by witnesses and counterexamples -/

/-- A well-formed record of the US file. -/
def recC : Record :=
  { bin := some "411111", brand := some "VISA", category := some "Platinum",
    typ := some "Credit", issuer := some "Chase Bank",
    country_code := some "US" }

/-- A record colliding with recC on the bin value. -/
def recD : Record :=
  { bin := some "411111", brand := some "VISA", category := some "Gold",
    issuer := some "Brac Bank", country_code := some "BD" }

/-- A record with no bin field. -/
def recE : Record :=
  { issuer := some "Barclays", country_code := some "GB" }

/-- A loaded state holding recC under US. -/
def demoState : LookupState := ⟨[("411111", recC)], [("US", [recC])]⟩

/-- A completed two-file load with a bin collision and a binless record. -/
def demoFs : List (String × List Record) := [("US", [recC, recD]), ("GB", [recE])]

/-! ## Shared lemmas -/

@[simp] lemma oor_some {α : Type} (x : α) (b : Option α) : oor (some x) b = some x := rfl

@[simp] lemma oor_none {α : Type} (b : Option α) : oor none b = b := rfl

@[simp] lemma oor_none_right {α : Type} (a : Option α) : oor a none = a := by
  cases a <;> rfl

lemma oor_assoc {α : Type} (a b c : Option α) :
    oor (oor a b) c = oor a (oor b c) := by
  cases a <;> rfl

lemma alLookup_alInsert {α : Type} (m : List (String × α)) (k : String) (v : α)
    (k' : String) :
    alLookup (alInsert m k v) k' = if k' = k then some v else alLookup m k' := by
  induction m with
  | nil =>
    by_cases h : k' = k
    · subst h; simp [alInsert, alLookup]
    · have h2 : ¬ k = k' := fun hh => h hh.symm
      simp [alInsert, alLookup, h, h2]
  | cons p rest ih =>
    obtain ⟨a, b⟩ := p
    by_cases hak : a = k
    · subst hak
      by_cases h : k' = a
      · subst h; simp [alInsert, alLookup]
      · have h2 : ¬ a = k' := fun hh => h hh.symm
        simp [alInsert, alLookup, h, h2]
    · by_cases h : a = k'
      · subst h
        simp [alInsert, alLookup, hak]
      · simp [alInsert, alLookup, hak, h, ih]

lemma lastOf_cons {α : Type} (a : α) (l : List α) :
    lastOf (a :: l) = oor (lastOf l) (some a) := by
  induction l generalizing a with
  | nil => rfl
  | cons b r ih =>
    show lastOf (b :: r) = oor (lastOf (b :: r)) (some a)
    rw [ih b]
    cases lastOf r <;> rfl

lemma lastOf_append {α : Type} (u v : List α) :
    lastOf (u ++ v) = oor (lastOf v) (lastOf u) := by
  induction u with
  | nil => simp [lastOf]
  | cons a u' ih =>
    rw [List.cons_append, lastOf_cons, ih, lastOf_cons, oor_assoc]

lemma lastOf_mem {α : Type} {l : List α} {a : α} (h : lastOf l = some a) :
    a ∈ l := by
  induction l with
  | nil => simp [lastOf] at h
  | cons b r ih =>
    rw [lastOf_cons] at h
    cases hr : lastOf r with
    | none => rw [hr] at h; simp at h; simp [h]
    | some c => rw [hr] at h; simp at h; subst h; exact List.mem_cons_of_mem _ (ih hr)

lemma lastWithBin_append (u v : List Record) (b : String) :
    lastWithBin (u ++ v) b = oor (lastWithBin v b) (lastWithBin u b) := by
  unfold lastWithBin
  rw [List.filter_append, lastOf_append]

lemma lastWithBin_cons (e : Record) (es : List Record) (b : String) :
    lastWithBin (e :: es) b
      = if e.bin == some b then oor (lastWithBin es b) (some e)
        else lastWithBin es b := by
  unfold lastWithBin
  rw [List.filter_cons]
  by_cases h : (e.bin == some b) = true <;> simp [h, lastOf_cons]

lemma lastWithBin_bin {es : List Record} {b : String} {r : Record}
    (h : lastWithBin es b = some r) : r.bin = some b := by
  have hm := lastOf_mem h
  rw [List.mem_filter] at hm
  simpa using hm.2

lemma alLookup_insertBins (es : List Record) (bi : List (String × Record))
    (b : String) :
    alLookup (insertBins bi es) b = oor (lastWithBin es b) (alLookup bi b) := by
  induction es generalizing bi with
  | nil => simp [insertBins, lastWithBin, lastOf]
  | cons e es ih =>
    have hstep : insertBins bi (e :: es)
        = insertBins (match e.bin with
            | some b' => alInsert bi b' e | none => bi) es := rfl
    rw [hstep, ih]
    cases hbin : e.bin with
    | none =>
      have hf : (e.bin == some b) = false := by simp [hbin]
      rw [lastWithBin_cons]
      simp [hf]
    | some b' =>
      by_cases hb : b' = b
      · subst hb
        have ht : (e.bin == some b') = true := by simp [hbin]
        rw [alLookup_alInsert, if_pos rfl, lastWithBin_cons]
        simp only [ht, if_true]
        rw [oor_assoc, oor_some]
      · have hf : (e.bin == some b) = false := by simp [hbin, hb]
        have hnb : ¬ b = b' := fun h => hb h.symm
        rw [alLookup_alInsert, if_neg hnb, lastWithBin_cons]
        simp [hf]

lemma loadAll_cons (p : String × List Record) (fs : List (String × List Record))
    (s : LookupState) :
    loadAll (p :: fs) s = loadAll fs (applyFile s p.1 p.2) := rfl

lemma alLookup_loadAll_binIndex (fs : List (String × List Record))
    (s : LookupState) (b : String) :
    alLookup (loadAll fs s).binIndex b
      = oor (lastWithBin (allEntries fs) b) (alLookup s.binIndex b) := by
  induction fs generalizing s with
  | nil => simp [loadAll, allEntries, lastWithBin, lastOf]
  | cons p fs ih =>
    rw [loadAll_cons, ih]
    have happ : (applyFile s p.1 p.2).binIndex = insertBins s.binIndex p.2 := rfl
    rw [happ, alLookup_insertBins]
    have hall : allEntries (p :: fs) = p.2 ++ allEntries fs := by
      simp [allEntries]
    rw [hall, lastWithBin_append, oor_assoc]

lemma alLookup_loadAll_countryData_notMem (fs : List (String × List Record))
    (s : LookupState) (c : String) (h : c ∉ fs.map Prod.fst) :
    alLookup (loadAll fs s).countryData c = alLookup s.countryData c := by
  induction fs generalizing s with
  | nil => rfl
  | cons p fs ih =>
    rw [loadAll_cons]
    have hc : c ∉ fs.map Prod.fst := by
      intro hm; exact h (by simp [hm])
    have hne : c ≠ p.1 := by
      intro he; exact h (by simp [he])
    rw [ih _ hc]
    show alLookup (alInsert s.countryData p.1 p.2) c = alLookup s.countryData c
    rw [alLookup_alInsert, if_neg hne]

lemma alLookup_loadAll_countryData (fs : List (String × List Record))
    (s : LookupState) (h : (fs.map Prod.fst).Nodup) (p : String × List Record)
    (hp : p ∈ fs) :
    alLookup (loadAll fs s).countryData p.1 = some p.2 := by
  induction fs generalizing s with
  | nil => cases hp
  | cons q fs ih =>
    rw [loadAll_cons]
    rcases List.mem_cons.mp hp with hq | hmem
    · subst hq
      have hnot : p.1 ∉ fs.map Prod.fst := by
        have := h
        simp only [List.map_cons, List.nodup_cons] at this
        exact this.1
      rw [alLookup_loadAll_countryData_notMem fs _ p.1 hnot]
      show alLookup (alInsert s.countryData p.1 p.2) p.1 = some p.2
      rw [alLookup_alInsert, if_pos rfl]
    · have hn : (fs.map Prod.fst).Nodup := by
        simp only [List.map_cons, List.nodup_cons] at h
        exact h.2
      exact ih _ hn hmem

lemma insertBins_binless (es : List Record) (bi : List (String × Record))
    (h : ∀ e ∈ es, e.bin = none) : insertBins bi es = bi := by
  induction es generalizing bi with
  | nil => rfl
  | cons e es ih =>
    have he : e.bin = none := h e (List.mem_cons_self e es)
    have hstep : insertBins bi (e :: es)
        = insertBins (match e.bin with
            | some b' => alInsert bi b' e | none => bi) es := rfl
    rw [hstep, he]
    exact ih bi fun x hx => h x (List.mem_cons_of_mem e hx)

lemma loadAll_binless (fs : List (String × List Record)) (s : LookupState)
    (h : ∀ p ∈ fs, ∀ e ∈ p.2, e.bin = none) :
    (loadAll fs s).binIndex = s.binIndex := by
  induction fs generalizing s with
  | nil => rfl
  | cons p fs ih =>
    rw [loadAll_cons]
    rw [ih _ fun q hq => h q (List.mem_cons_of_mem p hq)]
    exact insertBins_binless p.2 s.binIndex (h p (List.mem_cons_self p fs))

lemma truthy_some {s : String} (h : s ≠ "") : truthy (some s) = true := by
  simp [truthy, h]

@[simp] lemma truthy_none : truthy none = false := rfl

@[simp] lemma truthy_empty : truthy (some "") = false := rfl

lemma pySliceTo_pos {α : Type} (l : Int) (h : 0 < l) (xs : List α) :
    pySliceTo l xs = xs.take l.toNat := by
  unfold pySliceTo
  rw [if_pos (le_of_lt h)]

/-- Every outcome-par of attempts: the first success determines load_file. -/
def firstSuccess : List (Option (List Record)) → Option (List Record)
  | [] => none
  | some d :: _ => some d
  | none :: rest => firstSuccess rest

lemma load_file_eq (att : List (Option (List Record))) (cc : String)
    (s : LookupState) :
    load_file att cc s = match firstSuccess att with
      | some d => (applyFile s cc d, true)
      | none => (s, false) := by
  induction att with
  | nil => rfl
  | cons a rest ih =>
    cases a with
    | none => simpa [load_file, firstSuccess] using ih
    | some d => rfl

/-- A load in which every listed file is a .json file whose parse eventually
succeeds equals the corresponding sequence of successful insertions, with a
failed-file count of zero. -/
lemma load_data_eq_loadAll (files : List SourceFile) (s : LookupState)
    (hj : ∀ f ∈ files, isJsonName f.filename = true)
    (hs : ∀ f ∈ files, (firstSuccess f.attempts).isSome = true) :
    load_data files s
      = (loadAll (files.map fun f =>
          (fileCode f.filename, (firstSuccess f.attempts).getD [])) s, 0) := by
  induction files generalizing s with
  | nil => rfl
  | cons f rest ih =>
    have hjf := hj f (List.mem_cons_self f rest)
    have hsf := hs f (List.mem_cons_self f rest)
    obtain ⟨d, hd⟩ := Option.isSome_iff_exists.mp hsf
    unfold load_data
    rw [List.foldl_cons]
    have hstep : loadStep (s, 0) f = (applyFile s (fileCode f.filename) d, 0) := by
      unfold loadStep
      rw [load_file_eq, hd]
      simp [hjf]
    rw [hstep]
    have := ih (applyFile s (fileCode f.filename) d)
      (fun g hg => hj g (List.mem_cons_of_mem f hg))
      (fun g hg => hs g (List.mem_cons_of_mem f hg))
    unfold load_data at this
    rw [this]
    simp [loadAll, hd]

/-! ## Claim theorems -/

/-- C1: a file that fails every attempt is claimed to contribute nothing to
the indexes.  A file whose json.load raises each time indeed leaves the state
untouched (first conjunct); but a file containing the valid two-element JSON
array whose first element is an object with bin 411111 and whose second
element is the number 42 raises TypeError inside the BIN_INDEX loop on each
of the 3 attempts, is counted failed, and still leaves its country key in
COUNTRY_DATA and its first record in BIN_INDEX (second conjunct),
contradicting the claim. -/
theorem C1_failed_file_pollutes_indexes :
    load_file_raw [.failJson, .failJson, .failJson] "US" ⟨[], []⟩
        = (⟨[], []⟩, false)
      ∧ load_file_raw
          [.arr [.obj { bin := some "411111" }, .scalarBad],
           .arr [.obj { bin := some "411111" }, .scalarBad],
           .arr [.obj { bin := some "411111" }, .scalarBad]]
          "US" ⟨[], []⟩
        = (⟨[("411111", { bin := some "411111" })],
            [("US", [.obj { bin := some "411111" }, .scalarBad])]⟩, false) := by
  constructor
  · rfl
  · rfl

/-- C2 counterexample: with one matching record loaded, a query with
limit = 0 is rejected by the gt=0 parameter validation instead of returning
the (nonempty) full match list claimed for zero/negative limits. -/
theorem C2_counterexample :
    get_bins_api [] demoState (some "chase") none none (some 0)
        = ApiResult.validationError
      ∧ get_bins_core demoState (some "chase") none none none
        = ApiResult.success [format_entry recC] 1 "bank" := by
  constructor
  · rfl
  · decide

/-- C2 amended: an absent limit returns the full match list; a positive
limit N returns its first N entries (order preserved, count recomputed after
truncation); a zero or negative supplied limit is rejected by the gt=0
parameter validation before the handler body runs, for both the byBank and
byCountry modes. -/
theorem C2_limit_semantics (s : LookupState) (files : List SourceFile)
    (bk co bi : Option String) (l : Int) :
    (l ≤ 0 → get_bins_api files s bk co bi (some l) = .validationError)
    ∧ (∀ bq, bk = some bq → bq ≠ "" → s.countryData ≠ [] →
        bankMatches s bq ≠ [] →
        get_bins_core s bk co bi none
            = .success (bankMatches s bq) (bankMatches s bq).length "bank"
          ∧ (0 < l → get_bins_core s bk co bi (some l)
            = .success ((bankMatches s bq).take l.toNat)
                ((bankMatches s bq).take l.toNat).length "bank"))
    ∧ (∀ cq data, truthy bk = false → co = some cq → cq ≠ "" →
        alLookup s.countryData (strUpper cq) = some data →
        get_bins_core s bk co bi none
            = .success (data.map format_entry)
                (data.map format_entry).length "country"
          ∧ (0 < l → get_bins_core s bk co bi (some l)
            = .success ((data.map format_entry).take l.toNat)
                ((data.map format_entry).take l.toNat).length "country")) := by
  refine ⟨?_, ?_, ?_⟩
  · intro h
    simp [get_bins_api, h]
  · intro bq hbk hne hcd hms
    subst hbk
    constructor
    · simp [get_bins_core, truthy_some hne, hcd, hms, applyLimit]
    · intro hl
      simp [get_bins_core, truthy_some hne, hcd, hms, applyLimit,
        pySliceTo_pos l hl]
  · intro cq data hbk hco hne hlook
    subst hco
    constructor
    · simp [get_bins_core, hbk, truthy_some hne, hlook, applyLimit]
    · intro hl
      simp [get_bins_core, hbk, truthy_some hne, hlook, applyLimit,
        pySliceTo_pos l hl]

/-- C2 witness: concrete instances of the three amended conjuncts. -/
theorem C2_limit_semantics_witness :
    get_bins_api [] demoState (some "chase") none none (some (-1))
        = ApiResult.validationError
      ∧ get_bins_core demoState (some "chase") none none (some 1)
        = ApiResult.success ((bankMatches demoState "chase").take (1 : Int).toNat)
            ((bankMatches demoState "chase").take (1 : Int).toNat).length "bank"
      ∧ get_bins_core demoState none (some "us") none (some 1)
        = ApiResult.success (([recC].map format_entry).take (1 : Int).toNat)
            (([recC].map format_entry).take (1 : Int).toNat).length "country" := by
  refine ⟨?_, ?_, ?_⟩
  · exact (C2_limit_semantics demoState [] (some "chase") none none (-1)).1
      (by decide)
  · exact ((C2_limit_semantics demoState [] (some "chase") none none 1).2.1
      "chase" rfl (by decide) (by decide) (by decide)).2 (by decide)
  · exact ((C2_limit_semantics demoState [] none (some "us") none 1).2.2
      "us" [recC] rfl rfl (by decide) (by decide)).2 (by decide)

/-- C3 counterexample: supplying bank, country and bin together does not
yield the BadRequest outcome; the bank mode runs (and wins even over an
unknown country code). -/
theorem C3_counterexample :
    get_bins_core demoState (some "chase") (some "ZZ") (some "999999") none
        = ApiResult.success [format_entry recC] 1 "bank"
      ∧ get_bins_core demoState (some "chase") (some "ZZ") (some "999999") none
        ≠ ApiResult.error badRequestMsg 400 := by
  constructor
  · decide
  · decide

/-- C3 amended: supplying none of bank, country, bin (after Python
truthiness) yields the BadRequest outcome; supplying several runs the first
truthy mode in the fixed priority order bank, country, bin, ignoring the
others, with no BadRequest. -/
theorem C3_param_dispatch (s : LookupState) (bk co bi : Option String)
    (l : Option Int) :
    (truthy bk = false → truthy co = false → truthy bi = false →
      get_bins_core s bk co bi l = .error badRequestMsg 400)
    ∧ (truthy bk = true →
      get_bins_core s bk co bi l = get_bins_core s bk none none l)
    ∧ (truthy bk = false → truthy co = true →
      get_bins_core s bk co bi l = get_bins_core s none co none l)
    ∧ (truthy bk = false → truthy co = false → truthy bi = true →
      get_bins_core s bk co bi l = get_bins_core s none none bi l) := by
  refine ⟨?_, ?_, ?_, ?_⟩
  · intro h1 h2 h3
    simp [get_bins_core, h1, h2, h3]
  · intro h1
    simp [get_bins_core, h1]
  · intro h1 h2
    simp [get_bins_core, h1, h2]
  · intro h1 h2 h3
    simp [get_bins_core, h1, h2, h3]

/-- C3 witness: concrete instances of the four dispatch conjuncts. -/
theorem C3_param_dispatch_witness :
    get_bins_core demoState none none none none = .error badRequestMsg 400
      ∧ get_bins_core demoState (some "chase") (some "ZZ") (some "1") none
        = get_bins_core demoState (some "chase") none none none
      ∧ get_bins_core demoState none (some "us") (some "1") none
        = get_bins_core demoState none (some "us") none none
      ∧ get_bins_core demoState none none (some "411111") none
        = get_bins_core demoState none none (some "411111") none := by
  refine ⟨?_, ?_, ?_, ?_⟩
  · exact (C3_param_dispatch demoState none none none none).1 rfl rfl rfl
  · exact (C3_param_dispatch demoState (some "chase") (some "ZZ") (some "1")
      none).2.1 (by decide)
  · exact (C3_param_dispatch demoState none (some "us") (some "1") none).2.2.1
      rfl (by decide)
  · exact (C3_param_dispatch demoState none none (some "411111") none).2.2.2
      rfl rfl (by decide)

/-- C4 counterexample: the file US.JSON is loaded (its lower-cased name ends
in .json) but, because str.replace is case-sensitive, its records are indexed
under the country code "US.JSON", not under the base name upper-cased
("US"). -/
theorem C4_counterexample :
    (load_data [⟨"US.JSON", [some [recC]]⟩] emptyState).1.countryData
        = [("US.JSON", [recC])]
      ∧ ("US.JSON" : String) ≠ "US" := by
  constructor
  · rfl
  · decide

/-- C4 amended: a file participates in the load iff its lower-cased name
ends in ".json"; a successfully parsed file's records are indexed under
fileCode, the file name with every case-sensitive occurrence of ".json"
removed and then upper-cased (equal to the upper-cased base name only for
lower-case extensions). -/
theorem C4_loaded_iff_json (f : SourceFile) (s : LookupState) :
    (isJsonName f.filename = false → load_data [f] s = (s, 0))
    ∧ (isJsonName f.filename = true → ∀ d rest, f.attempts = some d :: rest →
      load_data [f] s = (applyFile s (fileCode f.filename) d, 0)) := by
  constructor
  · intro h
    simp [load_data, loadStep, h]
  · intro h d rest ha
    simp [load_data, loadStep, h, ha, load_file]

/-- C4 witness: a non-json file is skipped; us.json loads under fileCode. -/
theorem C4_loaded_iff_json_witness :
    load_data [⟨"readme.txt", []⟩] emptyState = (emptyState, 0)
      ∧ load_data [⟨"us.json", [some [recC]]⟩] emptyState
        = (applyFile emptyState (fileCode "us.json") [recC], 0) := by
  constructor
  · exact (C4_loaded_iff_json ⟨"readme.txt", []⟩ emptyState).1 (by decide)
  · exact (C4_loaded_iff_json ⟨"us.json", [some [recC]]⟩ emptyState).2
      (by decide) [recC] [] rfl

/-- C5: in byBank mode the empty-dataset outcome (COUNTRY_DATA empty, code
500) and the zero-matches outcome (data loaded, code 404) are distinct error
kinds, never collapsed. -/
theorem C5_empty_vs_nomatch (s : LookupState) (bq : String)
    (co bi : Option String) (l : Option Int) (hb : bq ≠ "") :
    (s.countryData = [] →
      get_bins_core s (some bq) co bi l = .error emptyMsg 500)
    ∧ (s.countryData ≠ [] → bankMatches s bq = [] →
      get_bins_core s (some bq) co bi l
        = .error ("No matches found for bank: " ++ bq) 404)
    ∧ (∀ m1 m2 : String, ApiResult.error m1 500 ≠ ApiResult.error m2 404) := by
  refine ⟨?_, ?_, ?_⟩
  · intro h
    simp [get_bins_core, truthy_some hb, h]
  · intro h hms
    simp [get_bins_core, truthy_some hb, h, hms]
  · intro m1 m2 h
    simp at h

/-- C5 witness: the two outcomes at concrete states. -/
theorem C5_empty_vs_nomatch_witness :
    get_bins_core emptyState (some "zzz") none none none = .error emptyMsg 500
      ∧ get_bins_core demoState (some "zzz") none none none
        = .error ("No matches found for bank: " ++ "zzz") 404 := by
  constructor
  · exact (C5_empty_vs_nomatch emptyState "zzz" none none none (by decide)).1
      rfl
  · exact (C5_empty_vs_nomatch demoState "zzz" none none none (by decide)).2.1
      (by decide) (by decide)

/-- C6: after a completed load, BIN_INDEX maps each bin value to the
last-loaded record carrying it (last writer wins); every BIN_INDEX value
carries its key as bin field, so a record with no bin appears under no key;
and with distinct country codes every file's record sequence is found intact
under its code in COUNTRY_DATA. -/
theorem C6_last_writer_wins (fs : List (String × List Record)) :
    (∀ b, alLookup (loadAll fs emptyState).binIndex b
        = lastWithBin (allEntries fs) b)
    ∧ (∀ b r, alLookup (loadAll fs emptyState).binIndex b = some r →
        r.bin = some b)
    ∧ ((fs.map Prod.fst).Nodup →
        ∀ p ∈ fs, alLookup (loadAll fs emptyState).countryData p.1 = some p.2) := by
  refine ⟨?_, ?_, ?_⟩
  · intro b
    rw [alLookup_loadAll_binIndex]
    simp [emptyState, alLookup]
  · intro b r h
    rw [alLookup_loadAll_binIndex] at h
    simp [emptyState, alLookup] at h
    exact lastWithBin_bin h
  · intro hnd p hp
    exact alLookup_loadAll_countryData fs emptyState hnd p hp

/-- C6 witness: on the two-file demo load, the colliding bin resolves to the
later record recD, whose bin is the key, and GB keeps its sequence. -/
theorem C6_last_writer_wins_witness :
    alLookup (loadAll demoFs emptyState).binIndex "411111" = some recD
      ∧ recD.bin = some "411111"
      ∧ alLookup (loadAll demoFs emptyState).countryData "GB" = some [recE] := by
  refine ⟨?_, ?_, ?_⟩
  · rw [(C6_last_writer_wins demoFs).1 "411111"]
    decide
  · exact (C6_last_writer_wins demoFs).2.1 "411111" recD (by decide)
  · exact (C6_last_writer_wins demoFs).2.2 (by decide) ("GB", [recE]) (by decide)

/-- C7 counterexample: format_entry does not pass country_code through
unchanged; a record carrying "us" is enriched with country_code "US". -/
theorem C7_counterexample :
    (format_entry { country_code := some "us" }).country_code = "US"
      ∧ ({ country_code := some "us" } : Record).country_code = some "us"
      ∧ ("US" : String) ≠ "us" := by
  refine ⟨by decide, rfl, by decide⟩

/-- C7 amended: format_entry passes bin, brand, category, type (twice, under
the keys Type and type), country_code_alpha3, issuer, phone and website
through unchanged, defaulting every missing field to ""; country_code is
upper-cased rather than passed through; CardTier is
trim(category + " " + brand); Country is the resolver output for the
upper-cased country_code. -/
theorem C7_enrichment_shape (e : Record) :
    (format_entry e).bin = e.bin.getD ""
      ∧ (format_entry e).brand = e.brand.getD ""
      ∧ (format_entry e).category = e.category.getD ""
      ∧ (format_entry e).TypeU = e.typ.getD ""
      ∧ (format_entry e).typeL = e.typ.getD ""
      ∧ (format_entry e).country_code = strUpper (e.country_code.getD "")
      ∧ (format_entry e).country_code_alpha3 = e.country_code_alpha3.getD ""
      ∧ (format_entry e).issuer = e.issuer.getD ""
      ∧ (format_entry e).phone = e.phone.getD ""
      ∧ (format_entry e).website = e.website.getD ""
      ∧ (format_entry e).CardTier
        = strTrim (e.category.getD "" ++ " " ++ e.brand.getD "")
      ∧ (format_entry e).Country
        = get_country_info (strUpper (e.country_code.getD "")) :=
  ⟨rfl, rfl, rfl, rfl, rfl, rfl, rfl, rfl, rfl, rfl, rfl, rfl⟩

/-- C8: a country code unknown to the static table resolves to exactly the
echo shape, with A2 the upper-cased input and every other field empty; the
function is total, never an error. -/
theorem C8_unknown_country (code : String)
    (h : pycountry_get (strUpper code) = none) :
    get_country_info code
      = { A2 := strUpper code, A3 := "", N3 := "", Name := "", Cont := "" } := by
  unfold get_country_info
  rw [h]

/-- C8 witness: the unknown code "xq". -/
theorem C8_unknown_country_witness :
    get_country_info "xq"
      = { A2 := strUpper "xq", A3 := "", N3 := "", Name := "", Cont := "" } :=
  C8_unknown_country "xq" (by decide)

/-- C9: the Unavailable outcome is decided per index: a byBin query returns
the 500 error whenever BIN_INDEX alone is empty; a dataset whose records all
lack a bin loads to an empty BIN_INDEX; and /api/binfo returns the 500 error
when BIN_INDEX is empty and stays empty after the reload. -/
theorem C9_unavailable_per_index :
    (∀ (s : LookupState) (bq : String) (l : Option Int), bq ≠ "" →
      s.binIndex = [] →
      get_bins_core s none none (some bq) l = .error emptyMsg 500)
    ∧ (∀ fs : List (String × List Record),
        (∀ p ∈ fs, ∀ e ∈ p.2, e.bin = none) →
        (loadAll fs emptyState).binIndex = [])
    ∧ (∀ (files : List SourceFile) (s : LookupState) (bq : String), bq ≠ "" →
        s.binIndex = [] → (load_data files s).1.binIndex = [] →
        get_bin_info files s (some bq) = .error emptyMsg 500) := by
  refine ⟨?_, ?_, ?_⟩
  · intro s bq l hb hbin
    simp [get_bins_core, truthy_some hb, hbin]
  · intro fs h
    rw [loadAll_binless fs emptyState h]
    rfl
  · intro files s bq hb hsb hld
    simp [get_bin_info, truthy_some hb, hsb, hld]

/-- C9 witness: a state with countries but no bins 500s on byBin; a binless
dataset loads to an empty BIN_INDEX; /api/binfo 500s on the empty dataset. -/
theorem C9_unavailable_per_index_witness :
    get_bins_core ⟨[], [("GB", [recE])]⟩ none none (some "411111") none
        = .error emptyMsg 500
      ∧ (loadAll [("GB", [recE])] emptyState).binIndex = []
      ∧ get_bin_info [] emptyState (some "411111") = .error emptyMsg 500 := by
  refine ⟨?_, ?_, ?_⟩
  · exact C9_unavailable_per_index.1 ⟨[], [("GB", [recE])]⟩ "411111" none
      (by decide) rfl
  · exact C9_unavailable_per_index.2.1 [("GB", [recE])] (by decide)
  · exact C9_unavailable_per_index.2.2 [] emptyState "411111" (by decide) rfl
      (by decide)

/-- C10: an empty-string query parameter is falsy, hence treated as absent
for dispatch: replacing an empty-string parameter by an absent one never
changes the outcome; all-empty parameters give the BadRequest outcome; and
with bank empty the country or bin mode runs. -/
theorem C10_empty_params_absent (s : LookupState) (l : Option Int) :
    (∀ co bi : Option String,
      get_bins_core s (some "") co bi l = get_bins_core s none co bi l)
    ∧ (∀ bk bi : Option String,
      get_bins_core s bk (some "") bi l = get_bins_core s bk none bi l)
    ∧ (∀ bk co : Option String,
      get_bins_core s bk co (some "") l = get_bins_core s bk co none l)
    ∧ (get_bins_core s (some "") (some "") (some "") l
        = .error badRequestMsg 400)
    ∧ (∀ cq data bi, cq ≠ "" →
        alLookup s.countryData (strUpper cq) = some data →
        get_bins_core s (some "") (some cq) bi l
          = .success (applyLimit l (data.map format_entry))
              (applyLimit l (data.map format_entry)).length "country")
    ∧ (∀ bq r, bq ≠ "" → s.binIndex ≠ [] → alLookup s.binIndex bq = some r →
        get_bins_core s (some "") (some "") (some bq) l
          = .success [format_entry r] 1 "bin") := by
  refine ⟨fun co bi => rfl, fun bk bi => rfl, fun bk co => rfl, rfl, ?_, ?_⟩
  · intro cq data bi hcq hlook
    simp [get_bins_core, truthy_some hcq, hlook]
  · intro bq r hbq hsb hlook
    simp [get_bins_core, truthy_some hbq, hsb, hlook]

/-- C10 witness: with bank supplied empty, the country and bin modes run on
the demo state, and all-empty parameters give the 400 outcome. -/
theorem C10_empty_params_absent_witness :
    get_bins_core demoState (some "") (some "us") none none
        = .success (applyLimit none ([recC].map format_entry))
            (applyLimit none ([recC].map format_entry)).length "country"
      ∧ get_bins_core demoState (some "") (some "") (some "411111") none
        = .success [format_entry recC] 1 "bin"
      ∧ get_bins_core demoState (some "") (some "") (some "") none
        = .error badRequestMsg 400 := by
  refine ⟨?_, ?_, ?_⟩
  · exact (C10_empty_params_absent demoState none).2.2.2.2.1 "us" [recC] none
      (by decide) (by decide)
  · exact (C10_empty_params_absent demoState none).2.2.2.2.2 "411111" recC
      (by decide) (by decide) (by decide)
  · exact (C10_empty_params_absent demoState none).2.2.2.1

end SmartDb
